import Mathlib

/-!
# Verification of the PDF Reports scan/filter/search engine

A shallow embedding of the backend server of Reports-GUI
(src/backend/server.py): the temporal filter filter_pdfs_by_date, the
search engine search_pdfs with its sentence segmentation and snippet
construction, and the HTTP endpoint handlers get_folders,
search_pdfs_endpoint, get_pdf and get_pdf_info together with their Python
exception-handling control flow.

Python strings are modelled as List Char (sequences of code points);
Python datetime values as a wall-clock ordinal together with an optional
timezone tag; Python exceptions as Except. The handlers are parameterised
over their external collaborators (the filesystem scan result, the
datetime.fromisoformat library parser, the end-of-today default cutoff),
which the engine only consumes.
-/

namespace Reports

/-- Python strings are sequences of code points. -/
abbrev Str := List Char

/-- Model of Python str.lower (at the ASCII level). -/
def pyLower (s : Str) : Str := s.map Char.toLower

/-- Model of Python str.strip: drop leading and trailing whitespace. -/
def pyStrip (s : Str) : Str :=
  ((s.dropWhile Char.isWhitespace).reverse.dropWhile Char.isWhitespace).reverse

/-- First index at which needle occurs in hay, if any. -/
def findSub (hay needle : Str) : Option Nat :=
  if needle.isPrefixOf hay then some 0
  else
    match hay with
    | [] => none
    | _ :: rest => (findSub rest needle).map (· + 1)

/-- Model of the Python operator `needle in hay` (substring containment). -/
def containsSub (hay needle : Str) : Bool := (findSub hay needle).isSome

/-- Model of Python hay.find(needle): first occurrence index, -1 if absent. -/
def pyFind (hay needle : Str) : Int :=
  match findSub hay needle with
  | some i => (i : Int)
  | none => -1

/-- Model of the Python slice s[a:b] for non-negative bounds. -/
def pySlice (s : Str) (a b : Int) : Str :=
  (s.drop a.toNat).take (b.toNat - a.toNat)

/-- Model of Python s.replace(Z, +00:00) as used on the cutoff string. -/
def replaceZ : Str → Str
  | [] => []
  | c :: rest =>
    if c = 'Z' then '+' :: '0' :: '0' :: ':' :: '0' :: '0' :: replaceZ rest
    else c :: replaceZ rest

/-- Lexicographic string comparison by code point (Python string le). -/
def strLe : Str → Str → Bool
  | [], _ => true
  | _ :: _, [] => false
  | a :: as, b :: bs => if a < b then true else if a = b then strLe as bs else false

/-- Is c one of the sentence delimiters (period, exclamation, question mark)? -/
def isDelim (c : Char) : Bool := c = '.' || c = '!' || c = '?'

/-- State machine for re.split on runs of delimiters: accumulate the current
non-delimiter run (reversed in acc), emit it when a delimiter run starts, and
let consecutive delimiters (tracked by prevDelim) act as a single boundary;
the final run is always emitted, so a trailing delimiter run yields a final
empty segment, as re.split produces. -/
def splitAux : Str → Str → Bool → List Str
  | [], acc, _ => [acc.reverse]
  | c :: rest, acc, prevDelim =>
    if isDelim c then
      if prevDelim then splitAux rest [] true
      else acc.reverse :: splitAux rest [] true
    else splitAux rest (c :: acc) false

/-- Model of re.split over the delimiter class [.!?]+ applied to text. -/
def reSplitDelims (s : Str) : List Str := splitAux s [] false

/-- A Python datetime: a wall-clock ordinal plus an optional timezone tag
(tz = none models a naive datetime). Naive datetimes compare by wall. -/
structure PyDateTime where
  wall : Int
  tz : Option Int := none
deriving DecidableEq, Repr

/-- Model of Python dt.replace(tzinfo=None). -/
def stripTz (d : PyDateTime) : PyDateTime := { d with tz := none }

/-- Pydantic model PDFInfo. -/
structure PDFInfo where
  filename : Str
  filepath : Str
  folder : Str
  size : Nat
  created_date : PyDateTime
  modified_date : PyDateTime
  text_content : Str := []
deriving DecidableEq, Repr

/-- Pydantic model FolderInfo. -/
structure FolderInfo where
  name : Str
  pdf_count : Nat
  pdfs : List PDFInfo
deriving DecidableEq, Repr

/-- Pydantic model SearchResult. -/
structure SearchResult where
  pdf : PDFInfo
  «matches» : List Str
  match_count : Nat
deriving DecidableEq, Repr

/-- Embedding of filter_pdfs_by_date(pdfs, target_datetime): strip any
timezone from the target, then keep the PDFs whose (timezone-stripped)
modification time is at most the target. -/
def filter_pdfs_by_date (pdfs : List PDFInfo) (target_datetime : PyDateTime) :
    List PDFInfo :=
  let target := if target_datetime.tz ≠ none then stripTz target_datetime
                else target_datetime
  pdfs.filter (fun pdf => (stripTz pdf.modified_date).wall ≤ target.wall)

/-- The literal match-entry tag Content-colon-space. -/
def contentTag : Str := "Content: ".toList

/-- The literal match-entry tag Filename-colon-space. -/
def filenameTag : Str := "Filename: ".toList

/-- The literal Content-colon marker tested by startswith in the
per-document content-match cap. -/
def contentMarker : Str := "Content:".toList

/-- Does a match entry start with the Content-colon marker (the cap test)? -/
def startsContent (m : Str) : Bool := contentMarker.isPrefixOf m

/-- Snippet construction for one sentence (server.py lines 216 to 226):
sentences longer than 200 characters are windowed around the first
case-insensitive occurrence of the search term (100 characters either side,
clamped), trimmed, and ellipsized on the truncated side(s); short sentences
are trimmed verbatim. -/
def buildContext (sentence search_term_lower : Str) : Str :=
  if 200 < sentence.length then
    let pos : Int := pyFind (pyLower sentence) search_term_lower
    let start : Int := max 0 (pos - 100)
    let stop : Int := min (sentence.length : Int) (pos + 100)
    let context := pyStrip (pySlice sentence start stop)
    let context := if 0 < start then '.' :: '.' :: '.' :: context else context
    let context := if stop < (sentence.length : Int) then context ++ ['.', '.', '.']
                   else context
    context
  else pyStrip sentence

/-- The sentence loop of search_pdfs (server.py lines 212 to 236): for each
sentence containing the search term, build a snippet, record it as a
Content match when it is non-empty and longer than 10 characters, and stop
as soon as the matches list holds 3 Content-marked entries. -/
def scanSegments (stl : Str) : List Str → List Str → Nat → List Str × Nat
  | [], «matches», match_count => («matches», match_count)
  | sentence :: rest, «matches», match_count =>
    if containsSub (pyLower sentence) stl then
      let context := buildContext sentence stl
      let state :=
        if context ≠ [] ∧ 10 < context.length then
          («matches» ++ [contentTag ++ context], match_count + 1)
        else («matches», match_count)
      if 3 ≤ state.1.countP startsContent then state
      else scanSegments stl rest state.1 state.2
    else scanSegments stl rest «matches» match_count

/-- The per-document body of the loop over pdfs in search_pdfs: filename
match, then content matches over the sentence segmentation; a SearchResult
is produced only when at least one match was recorded. -/
def searchOne (stl : Str) (pdf : PDFInfo) : Option SearchResult :=
  let state :=
    if containsSub (pyLower pdf.filename) stl then
      ([filenameTag ++ pdf.filename], 1)
    else (([] : List Str), 0)
  let state :=
    if pdf.text_content ≠ [] ∧ containsSub (pyLower pdf.text_content) stl then
      scanSegments stl (reSplitDelims pdf.text_content) state.1 state.2
    else state
  if state.1 ≠ [] then some ⟨pdf, state.1, state.2⟩ else none

/-- The sort key comparison used by results.sort in search_pdfs: ascending
in the pair (negated match_count, filename). -/
def rankLe (a b : SearchResult) : Bool :=
  b.match_count < a.match_count ||
    (a.match_count == b.match_count && strLe a.pdf.filename b.pdf.filename)

/-- Embedding of search_pdfs(pdfs, search_term): empty or whitespace-only
query short-circuits; otherwise collect per-document results in order and
stably sort them by descending match count, then ascending filename. -/
def search_pdfs (pdfs : List PDFInfo) (search_term : Str) : List SearchResult :=
  if pyStrip search_term = [] then []
  else
    let stl := pyLower search_term
    let results := pdfs.filterMap (searchOne stl)
    results.mergeSort rankLe

/-- FastAPI HTTPException, carrying an HTTP status code and a detail
message. In Python it is a subclass of Exception, so a blanket
`except Exception` catches it. -/
structure HTTPException where
  status_code : Nat
  detail : Str
deriving DecidableEq, Repr

/-- The `except Exception ... raise HTTPException(500, ...)` wrapper that
every endpoint body is enclosed in: any exception escaping the body —
including an HTTPException raised inside it — is replaced by a generic
500 Internal server error. -/
def handle500 {α : Type} (body : Except HTTPException α) : Except HTTPException α :=
  match body with
  | .ok v => .ok v
  | .error _ => .error ⟨500, "Internal server error".toList⟩

/-- Python truthiness of an optional string parameter: None and the empty
string are falsy. -/
def pyTruthyOptStr : Option Str → Bool
  | some s => !s.isEmpty
  | none => false

/-- Embedding of the GET /api/folders handler. Parameters supplied by the
external collaborators: fromisoformat (the library datetime parser, None
modelling a ValueError), default_end_of_today (the fallback cutoff), and
folders_data (the scan_reports_directory result, in mapping order). -/
def get_folders (fromisoformat : Str → Option PyDateTime)
    (default_end_of_today : PyDateTime)
    (folders_data : List (Str × List PDFInfo)) (target_datetime : Option Str) :
    Except HTTPException (List FolderInfo) :=
  handle500 (do
    let filter_datetime ←
      if pyTruthyOptStr target_datetime then
        match fromisoformat (replaceZ (target_datetime.getD [])) with
        | some dt => pure dt
        | none => Except.error ⟨400, "Invalid datetime format".toList⟩
      else pure default_end_of_today
    let result := folders_data.map (fun fd =>
      let filtered := filter_pdfs_by_date fd.2 filter_datetime
      FolderInfo.mk fd.1 filtered.length filtered)
    pure (result.mergeSort (fun a b => strLe a.name b.name)))

/-- Embedding of the GET /api/search handler, parameterised like
get_folders. -/
def search_pdfs_endpoint (fromisoformat : Str → Option PyDateTime)
    (default_end_of_today : PyDateTime)
    (folders_data : List (Str × List PDFInfo)) (q : Str)
    (target_datetime : Option Str) :
    Except HTTPException (List SearchResult) :=
  handle500 (do
    if pyStrip q = [] then pure []
    else
      let all_pdfs := (folders_data.map Prod.snd).flatten
      let all_pdfs ←
        if pyTruthyOptStr target_datetime then
          match fromisoformat (replaceZ (target_datetime.getD [])) with
          | some dt => pure (filter_pdfs_by_date all_pdfs dt)
          | none => Except.error ⟨400, "Invalid datetime format".toList⟩
        else pure (filter_pdfs_by_date all_pdfs default_end_of_today)
      pure (search_pdfs all_pdfs q))

/-- The reports root directory path. -/
def REPORTS_DIR : Str := "/app/reports".toList

/-- Path concatenation with a separating slash. -/
def pathJoin (a b : Str) : Str := a ++ '/' :: b

/-- Index of the last period in a file name, if any. -/
def lastDotIdx : Str → Option Nat
  | [] => none
  | c :: rest =>
    match lastDotIdx rest with
    | some i => some (i + 1)
    | none => if c = '.' then some 0 else none

/-- Model of pathlib suffix for a single file name: the portion from the
last period on, unless that period is the first or last character. -/
def pySuffix (name : Str) : Str :=
  match lastDotIdx name with
  | some i => if 0 < i ∧ i + 1 < name.length then name.drop i else []
  | none => []

/-- The FileResponse produced by the PDF-serving endpoint. -/
structure FileResponse where
  path : Str
  media_type : Str
  content_disposition : Str
deriving DecidableEq, Repr

/-- Embedding of the GET /api/pdf/folder/filename handler. is_file models
the combined exists-and-is-file filesystem check for the resolved path. -/
def get_pdf (is_file : Str → Str → Bool) (folder_name filename : Str) :
    Except HTTPException FileResponse :=
  handle500 (do
    let pdf_path := pathJoin (pathJoin REPORTS_DIR folder_name) filename
    if is_file folder_name filename = false then
      Except.error ⟨404, "PDF not found".toList⟩
    else if pyLower (pySuffix filename) ≠ ".pdf".toList then
      Except.error ⟨400, "Not a PDF file".toList⟩
    else
      pure ⟨pdf_path, "application/pdf".toList,
        "inline; filename=".toList ++ filename⟩)

/-- Embedding of the GET /api/pdf-info/folder/filename handler. extract
models extract_pdf_metadata_and_text (None modelling its failure path). -/
def get_pdf_info (is_file : Str → Str → Bool) (extract : Str → Option PDFInfo)
    (folder_name filename : Str) : Except HTTPException PDFInfo :=
  handle500 (do
    let pdf_path := pathJoin (pathJoin REPORTS_DIR folder_name) filename
    if is_file folder_name filename = false then
      Except.error ⟨404, "PDF not found".toList⟩
    else
      match extract pdf_path with
      | none => Except.error ⟨500, "Could not process PDF".toList⟩
      | some pdf_data => pure pdf_data)

/-- The snippet for a long segment as the specification words it: locate
the first case-insensitive occurrence of the query in the segment, take a
window of up to 100 characters before and 100 characters after that
occurrence, clamped to the segment bounds, trim it, prefix an ellipsis
exactly when the window does not start at the segment beginning, and
suffix an ellipsis exactly when it does not end at the segment end. -/
def snippetSpec (segment query_lower : Str) : Str :=
  match findSub (pyLower segment) query_lower with
  | some pos =>
    let lo := pos - 100
    let hi := min segment.length (pos + 100)
    let trimmed := pyStrip ((segment.drop lo).take (hi - lo))
    let withPre := if lo ≠ 0 then '.' :: '.' :: '.' :: trimmed else trimmed
    if hi ≠ segment.length then withPre ++ ['.', '.', '.'] else withPre
  | none => []

/-- The relevance order the specification mandates on search results:
descending match count first, then ascending filename as the tie-break. -/
def rankRel (a b : SearchResult) : Prop :=
  b.match_count < a.match_count ∨
    (a.match_count = b.match_count ∧ strLe a.pdf.filename b.pdf.filename = true)

/-- A concrete sample document used to witness the search theorems. -/
def pdfWitness : PDFInfo :=
  { filename := "report_alpha.pdf".toList
    filepath := "/app/reports/financial_reports/report_alpha.pdf".toList
    folder := "financial_reports".toList
    size := 1024
    created_date := ⟨0, none⟩
    modified_date := ⟨5, none⟩
    text_content := ("the alpha one is here. the alpha two is here. " ++
      "the alpha three is here! the alpha four is here").toList }

/-- The search result that searching the sample document produces. -/
def resultWitness : SearchResult :=
  { pdf := pdfWitness
    «matches» := ["Filename: report_alpha.pdf".toList,
      "Content: the alpha one is here".toList,
      "Content: the alpha two is here".toList,
      "Content: the alpha three is here".toList]
    match_count := 4 }

/-- A concrete segment longer than 200 characters containing the query. -/
def segWitness : Str := List.replicate 150 'x' ++ " alpha ".toList ++ List.replicate 80 'y'

/-- The concrete (lowercased) query used with segWitness. -/
def qWitness : Str := "alpha".toList

/-! ## Theorems -/

/-- The wall-clock value of a datetime is unchanged by timezone stripping,
so the filter predicate is a pure wall-clock comparison with the cutoff. -/
theorem filter_mem_iff (pdfs : List PDFInfo) (t : PyDateTime) (p : PDFInfo) :
    p ∈ filter_pdfs_by_date pdfs t ↔ p ∈ pdfs ∧ p.modified_date.wall ≤ t.wall := by
  simp only [filter_pdfs_by_date, List.mem_filter, stripTz, decide_eq_true_eq]
  split <;> exact Iff.rfl

/-- C4: the temporal filter keeps a document iff its modification time is
at or before the cutoff (inclusive), it is a pure list filter (no
mutation), and it preserves the relative order of kept documents (its
output is a sublist of its input). -/
theorem filter_keeps_iff_le_cutoff (pdfs : List PDFInfo) (t : PyDateTime) :
    (∀ p : PDFInfo,
      p ∈ filter_pdfs_by_date pdfs t ↔ p ∈ pdfs ∧ p.modified_date.wall ≤ t.wall) ∧
    (filter_pdfs_by_date pdfs t).Sublist pdfs :=
  ⟨filter_mem_iff pdfs t, List.filter_sublist _⟩

/-- C8: the temporal filter is monotone in the cutoff: any document kept
for cutoff c1 is also kept for any later cutoff c2. -/
theorem filter_monotone (pdfs : List PDFInfo) (c1 c2 : PyDateTime)
    (h : c1.wall ≤ c2.wall) (p : PDFInfo)
    (hp : p ∈ filter_pdfs_by_date pdfs c1) :
    p ∈ filter_pdfs_by_date pdfs c2 := by
  obtain ⟨hmem, hle⟩ := (filter_mem_iff pdfs c1 p).mp hp
  exact (filter_mem_iff pdfs c2 p).mpr ⟨hmem, le_trans hle h⟩

/-- Witness for C8 at a concrete document and cutoff pair. -/
theorem filter_monotone_witness :
    pdfWitness ∈ filter_pdfs_by_date [pdfWitness] ⟨7, some 0⟩ :=
  filter_monotone [pdfWitness] ⟨5, none⟩ ⟨7, some 0⟩ (by decide) pdfWitness
    (by decide)

/-- C1 (divergence): when the cutoff string fails to parse, both the
list-folders and the search handlers return the generic 500 Internal
server error, not the 400 Invalid datetime format raised inside — the
blanket `except Exception` catches the HTTPException and replaces it. -/
theorem malformed_cutoff_maps_to_500
    (fromisoformat : Str → Option PyDateTime) (default_end_of_today : PyDateTime)
    (folders_data : List (Str × List PDFInfo)) (s q : Str)
    (hs : s ≠ []) (hq : pyStrip q ≠ [])
    (hparse : fromisoformat (replaceZ s) = none) :
    get_folders fromisoformat default_end_of_today folders_data (some s)
      = Except.error ⟨500, "Internal server error".toList⟩ ∧
    search_pdfs_endpoint fromisoformat default_end_of_today folders_data q (some s)
      = Except.error ⟨500, "Internal server error".toList⟩ := by
  have ht : pyTruthyOptStr (some s) = true := by
    simp [pyTruthyOptStr, List.isEmpty_iff, hs]
  constructor
  · simp [get_folders, handle500, ht, hparse, Except.bind]
  · simp [search_pdfs_endpoint, handle500, ht, hparse, hq, Except.bind]

/-- Witness for C1: a concrete unparsable cutoff string. -/
theorem malformed_cutoff_witness :
    get_folders (fun _ => none) ⟨0, none⟩ [] (some ("not-a-date".toList))
      = Except.error ⟨500, "Internal server error".toList⟩ ∧
    search_pdfs_endpoint (fun _ => none) ⟨0, none⟩ [] ("alpha".toList)
        (some ("not-a-date".toList))
      = Except.error ⟨500, "Internal server error".toList⟩ :=
  malformed_cutoff_maps_to_500 (fun _ => none) ⟨0, none⟩ []
    ("not-a-date".toList) ("alpha".toList) (by decide) (by decide) rfl

/-- C2 (divergence): when the folder/file pair does not resolve to an
existing file, both the document-bytes and the document-info handlers
return the generic 500 Internal server error, not the 404 raised inside —
the blanket `except Exception` catches the HTTPException. -/
theorem lookup_miss_maps_to_500
    (is_file : Str → Str → Bool) (extract : Str → Option PDFInfo)
    (folder_name filename : Str) (h : is_file folder_name filename = false) :
    get_pdf is_file folder_name filename
      = Except.error ⟨500, "Internal server error".toList⟩ ∧
    get_pdf_info is_file extract folder_name filename
      = Except.error ⟨500, "Internal server error".toList⟩ := by
  constructor
  · simp [get_pdf, handle500, h, Except.bind]
  · simp [get_pdf_info, handle500, h, Except.bind]

/-- Witness for C2: a concrete missing folder/file pair. -/
theorem lookup_miss_witness :
    get_pdf (fun _ _ => false) ("reports".toList) ("missing.pdf".toList)
      = Except.error ⟨500, "Internal server error".toList⟩ ∧
    get_pdf_info (fun _ _ => false) (fun _ => none) ("reports".toList)
        ("missing.pdf".toList)
      = Except.error ⟨500, "Internal server error".toList⟩ :=
  lookup_miss_maps_to_500 (fun _ _ => false) (fun _ => none)
    ("reports".toList) ("missing.pdf".toList) rfl

/-- Trimming never lengthens a string. -/
theorem pyStrip_length_le (s : Str) : (pyStrip s).length ≤ s.length := by
  simp only [pyStrip, List.length_reverse]
  exact le_trans ((List.dropWhile_sublist _).length_le)
    (by simpa using (List.dropWhile_sublist (l := s) Char.isWhitespace).length_le)

/-- A slice is no longer than the distance between its bounds. -/
theorem pySlice_length_le (s : Str) (a b : Int) :
    (pySlice s a b).length ≤ b.toNat - a.toNat := by
  simp only [pySlice, List.length_take, List.length_drop]
  omega

/-- The find result is at least -1. -/
theorem pyFind_ge (hay needle : Str) : -1 ≤ pyFind hay needle := by
  unfold pyFind
  split <;> omega

/-- Snippets built for any sentence are at most 206 characters long
(a 200-character window plus two 3-character ellipses). -/
theorem buildContext_length_le (s q : Str) : (buildContext s q).length ≤ 206 := by
  unfold buildContext
  split
  case isTrue h =>
    have hpos := pyFind_ge (pyLower s) q
    set p := pyFind (pyLower s) q with hp
    have hwin : (pyStrip (pySlice s (max 0 (p - 100))
        (min (s.length : Int) (p + 100)))).length ≤ 200 := by
      refine le_trans (pyStrip_length_le _) (le_trans (pySlice_length_le _ _ _) ?_)
      omega
    dsimp only
    set w := pyStrip (pySlice s (max 0 (p - 100)) (min (s.length : Int) (p + 100)))
      with hwdef
    have h1 : (if (0:Int) < max 0 (p - 100) then '.' :: '.' :: '.' :: w
        else w).length ≤ 203 := by
      split
      · simp only [List.length_cons]; omega
      · omega
    split
    · simp only [List.length_append, List.length_cons, List.length_nil]
      omega
    · exact le_trans h1 (by omega)
  case isFalse h =>
    exact le_trans (pyStrip_length_le s) (by omega)

/-- A Content-tagged entry passes the startswith Content-colon cap test. -/
theorem startsContent_contentTag (ctx : Str) :
    startsContent (contentTag ++ ctx) = true := by
  have h : contentTag ++ ctx = contentMarker ++ (' ' :: ctx) := rfl
  simp only [startsContent, h, List.isPrefixOf_iff_prefix]
  exact List.prefix_append _ _

/-- A Filename-tagged entry does not pass the Content-colon cap test. -/
theorem startsContent_filenameTag (n : Str) :
    startsContent (filenameTag ++ n) = false := rfl

/-- A Content-tagged entry is not Filename-tagged. -/
theorem filenameTag_not_isPrefixOf_content (ctx : Str) :
    filenameTag.isPrefixOf (contentTag ++ ctx) = false := rfl

/-- A Filename-tagged entry is not Content-tagged. -/
theorem contentTag_not_isPrefixOf_filename (n : Str) :
    contentTag.isPrefixOf (filenameTag ++ n) = false := rfl

/-- The sentence loop never accumulates more than 3 Content-marked entries
when it starts below the cap. -/
theorem scanSegments_countP_le (stl : Str) (segs : List Str) :
    ∀ (ms : List Str) (c : Nat), ms.countP startsContent < 3 →
    ((scanSegments stl segs ms c).1.countP startsContent) ≤ 3 := by
  induction segs with
  | nil =>
    intro ms c h
    simpa [scanSegments] using Nat.le_of_lt h
  | cons s rest ih =>
    intro ms c h
    rw [scanSegments]
    split
    case isTrue hc =>
      dsimp only
      by_cases hk : buildContext s stl ≠ [] ∧ 10 < (buildContext s stl).length
      · rw [if_pos hk]
        have hcnt : (ms ++ [contentTag ++ buildContext s stl]).countP startsContent
            = ms.countP startsContent + 1 := by
          simp [List.countP_append, List.countP_cons, startsContent_contentTag]
        split
        · simpa [hcnt] using by omega
        · exact ih _ _ (by omega)
      · rw [if_neg hk]
        split
        · dsimp only
          omega
        · exact ih _ _ h
    case isFalse hc => exact ih _ _ h

/-- One unfolded step of the sentence loop, with the context binding
zeta-expanded, for rewriting in proofs. -/
theorem scanSegments_cons (stl s : Str) (rest ms : List Str) (c : Nat) :
    scanSegments stl (s :: rest) ms c =
      if containsSub (pyLower s) stl then
        (fun state =>
          if 3 ≤ state.1.countP startsContent then state
          else scanSegments stl rest state.1 state.2)
        (if buildContext s stl ≠ [] ∧ 10 < (buildContext s stl).length
          then (ms ++ [contentTag ++ buildContext s stl], c + 1) else (ms, c))
      else scanSegments stl rest ms c := rfl

/-- Step lemma: a matching sentence with a surviving snippet appends the
Content entry and increments the counter, then tests the cap. -/
theorem scanSegments_cons_keep (stl s : Str) (rest ms : List Str) (c : Nat)
    (hc : containsSub (pyLower s) stl = true)
    (hk : buildContext s stl ≠ [] ∧ 10 < (buildContext s stl).length) :
    scanSegments stl (s :: rest) ms c =
      if 3 ≤ (ms ++ [contentTag ++ buildContext s stl]).countP startsContent
      then (ms ++ [contentTag ++ buildContext s stl], c + 1)
      else scanSegments stl rest (ms ++ [contentTag ++ buildContext s stl]) (c + 1) := by
  rw [scanSegments_cons, if_pos hc, if_pos hk]

/-- Step lemma: a matching sentence whose snippet is discarded leaves the
state unchanged but still tests the cap. -/
theorem scanSegments_cons_skip (stl s : Str) (rest ms : List Str) (c : Nat)
    (hc : containsSub (pyLower s) stl = true)
    (hk : ¬(buildContext s stl ≠ [] ∧ 10 < (buildContext s stl).length)) :
    scanSegments stl (s :: rest) ms c =
      if 3 ≤ ms.countP startsContent then (ms, c)
      else scanSegments stl rest ms c := by
  rw [scanSegments_cons, if_pos hc, if_neg hk]

/-- Step lemma: a sentence not containing the search term is skipped. -/
theorem scanSegments_cons_nomatch (stl s : Str) (rest ms : List Str) (c : Nat)
    (hc : ¬ containsSub (pyLower s) stl = true) :
    scanSegments stl (s :: rest) ms c = scanSegments stl rest ms c := by
  rw [scanSegments_cons, if_neg hc]

/-- Once a scan of some segments has recorded 3 Content-marked entries,
appending further segments changes nothing: the loop has already
broken out. -/
theorem scanSegments_stops_at_three (stl : Str) (segs : List Str) :
    ∀ (rest ms : List Str) (c : Nat), ms.countP startsContent < 3 →
    3 ≤ (scanSegments stl segs ms c).1.countP startsContent →
    scanSegments stl (segs ++ rest) ms c = scanSegments stl segs ms c := by
  induction segs with
  | nil =>
    intro rest ms c h h3
    simp only [scanSegments] at h3
    omega
  | cons s segs ih =>
    intro rest ms c h h3
    rw [List.cons_append]
    by_cases hc : containsSub (pyLower s) stl = true
    · by_cases hk : buildContext s stl ≠ [] ∧ 10 < (buildContext s stl).length
      · rw [scanSegments_cons_keep stl s segs ms c hc hk] at h3
        rw [scanSegments_cons_keep stl s (segs ++ rest) ms c hc hk,
          scanSegments_cons_keep stl s segs ms c hc hk]
        have hcnt : (ms ++ [contentTag ++ buildContext s stl]).countP startsContent
            = ms.countP startsContent + 1 := by
          simp [List.countP_append, List.countP_cons, startsContent_contentTag]
        split at h3
        next hbreak => rw [if_pos hbreak, if_pos hbreak]
        next hbreak =>
          rw [if_neg hbreak, if_neg hbreak]
          exact ih rest _ _ (by omega) h3
      · rw [scanSegments_cons_skip stl s segs ms c hc hk] at h3
        rw [scanSegments_cons_skip stl s (segs ++ rest) ms c hc hk,
          scanSegments_cons_skip stl s segs ms c hc hk]
        split at h3
        next hbreak => omega
        next hbreak =>
          rw [if_neg hbreak, if_neg hbreak]
          exact ih rest _ _ h h3
    · rw [scanSegments_cons_nomatch stl s segs ms c hc] at h3
      rw [scanSegments_cons_nomatch stl s (segs ++ rest) ms c hc,
        scanSegments_cons_nomatch stl s segs ms c hc]
      exact ih rest _ _ h h3

/-- The loop increments its counter exactly when it appends a match, so
the counter stays in sync with the length of the matches list. -/
theorem scanSegments_count_eq_length (stl : Str) (segs : List Str) :
    ∀ (ms : List Str) (c : Nat), c = ms.length →
    (scanSegments stl segs ms c).2 = (scanSegments stl segs ms c).1.length := by
  induction segs with
  | nil =>
    intro ms c h
    simpa [scanSegments] using h
  | cons s rest ih =>
    intro ms c h
    by_cases hc : containsSub (pyLower s) stl = true
    · by_cases hk : buildContext s stl ≠ [] ∧ 10 < (buildContext s stl).length
      · rw [scanSegments_cons_keep stl s rest ms c hc hk]
        split
        · simp [h]
        · exact ih _ _ (by simp [h])
      · rw [scanSegments_cons_skip stl s rest ms c hc hk]
        split
        · exact h
        · exact ih _ _ h
    · rw [scanSegments_cons_nomatch stl s rest ms c hc]
      exact ih _ _ h

/-- Everything the sentence loop appends after the initial matches is a
Content-tagged entry whose snippet is longer than 10 and at most 206
characters. -/
theorem scanSegments_suffix_form (stl : Str) (segs : List Str) :
    ∀ (ms : List Str) (c : Nat), ∃ t,
    (scanSegments stl segs ms c).1 = ms ++ t ∧
    ∀ e ∈ t, ∃ ctx, e = contentTag ++ ctx ∧ 10 < ctx.length ∧ ctx.length ≤ 206 := by
  induction segs with
  | nil =>
    intro ms c
    exact ⟨[], by simp [scanSegments], by simp⟩
  | cons s rest ih =>
    intro ms c
    by_cases hc : containsSub (pyLower s) stl = true
    · by_cases hk : buildContext s stl ≠ [] ∧ 10 < (buildContext s stl).length
      · rw [scanSegments_cons_keep stl s rest ms c hc hk]
        have hctx : ∀ e ∈ [contentTag ++ buildContext s stl], ∃ ctx,
            e = contentTag ++ ctx ∧ 10 < ctx.length ∧ ctx.length ≤ 206 := by
          intro e he
          rw [List.mem_singleton] at he
          exact ⟨buildContext s stl, he, hk.2, buildContext_length_le s stl⟩
        split
        · exact ⟨[contentTag ++ buildContext s stl], rfl, hctx⟩
        · obtain ⟨t, ht, htall⟩ := ih (ms ++ [contentTag ++ buildContext s stl]) (c + 1)
          refine ⟨[contentTag ++ buildContext s stl] ++ t, by
            rw [ht, List.append_assoc], ?_⟩
          intro e he
          rcases List.mem_append.mp he with he | he
          · exact hctx e he
          · exact htall e he
      · rw [scanSegments_cons_skip stl s rest ms c hc hk]
        split
        · exact ⟨[], by simp, by simp⟩
        · exact ih ms c
    · rw [scanSegments_cons_nomatch stl s rest ms c hc]
      exact ih ms c

/-- A Filename-tagged entry is Filename-tagged. -/
theorem filenameTag_isPrefixOf_self (n : Str) :
    filenameTag.isPrefixOf (filenameTag ++ n) = true := by
  simp [ List.isPrefixOf_iff_prefix]

/-- Full characterisation of a successful searchOne: the counter equals the
length of the matches list, the list is non-empty, at most 3 of its entries
are Content-marked, and it consists of an optional leading Filename entry
followed only by bounded Content entries. -/
theorem searchOne_props (stl : Str) (pdf : PDFInfo) (r : SearchResult)
    (h : searchOne stl pdf = some r) :
    r.match_count = r.«matches».length ∧ 1 ≤ r.«matches».length ∧
    r.«matches».countP startsContent ≤ 3 ∧
    ∃ t, (∀ e ∈ t, ∃ ctx, e = contentTag ++ ctx ∧ 10 < ctx.length ∧ ctx.length ≤ 206) ∧
      (r.«matches» = t ∨ r.«matches» = (filenameTag ++ pdf.filename) :: t) := by
  simp only [searchOne] at h
  by_cases hf : containsSub (pyLower pdf.filename) stl = true
  · rw [if_pos hf] at h
    by_cases hcont : pdf.text_content ≠ [] ∧
        containsSub (pyLower pdf.text_content) stl = true
    · rw [if_pos hcont] at h
      dsimp only at h
      split at h
      next hne =>
        obtain rfl := (Option.some_inj.mp h).symm
        refine ⟨?_, ?_, ?_, ?_⟩
        · exact scanSegments_count_eq_length stl _ _ _ (by simp)
        · exact List.length_pos.mpr hne
        · exact scanSegments_countP_le stl _ _ _
            (by simp [List.countP_cons, startsContent_filenameTag])
        · obtain ⟨t, ht, hall⟩ :=
            scanSegments_suffix_form stl (reSplitDelims pdf.text_content)
              [filenameTag ++ pdf.filename] 1
          exact ⟨t, hall, Or.inr (by rw [ht, List.singleton_append])⟩
      next hne => cases h
    · rw [if_neg hcont] at h
      dsimp only at h
      split at h
      next hne =>
        obtain rfl := (Option.some_inj.mp h).symm
        refine ⟨rfl, by simp, ?_, [], by simp, Or.inr rfl⟩
        simp [List.countP_cons, startsContent_filenameTag]
      next hne => cases h
  · rw [if_neg hf] at h
    by_cases hcont : pdf.text_content ≠ [] ∧
        containsSub (pyLower pdf.text_content) stl = true
    · rw [if_pos hcont] at h
      dsimp only at h
      split at h
      next hne =>
        obtain rfl := (Option.some_inj.mp h).symm
        refine ⟨?_, ?_, ?_, ?_⟩
        · exact scanSegments_count_eq_length stl _ _ _ (by simp)
        · exact List.length_pos.mpr hne
        · exact scanSegments_countP_le stl _ _ _ (by simp)
        · obtain ⟨t, ht, hall⟩ :=
            scanSegments_suffix_form stl (reSplitDelims pdf.text_content) [] 0
          exact ⟨t, hall, Or.inl (by rw [ht, List.nil_append])⟩
      next hne => cases h
    · rw [if_neg hcont] at h
      dsimp only at h
      simp at h

/-- A member of the search output comes from searchOne on a member of the
input list (membership is invariant under the final stable sort). -/
theorem mem_search_pdfs (pdfs : List PDFInfo) (q : Str) (r : SearchResult)
    (h : r ∈ search_pdfs pdfs q) :
    ∃ pdf, pdf ∈ pdfs ∧ searchOne (pyLower q) pdf = some r := by
  simp only [search_pdfs] at h
  split at h
  · simp at h
  · rw [List.mem_mergeSort, List.mem_filterMap] at h
    exact h

/-- C5: no search result carries more than 3 Content-tagged entries, and
the sentence loop stops scanning further segments once 3 Content matches
have been recorded (whatever the initial matches list — in particular
whether or not it holds a filename match, which the Content-colon cap
test never counts). -/
theorem content_cap_three :
    (∀ (pdfs : List PDFInfo) (q : Str) (r : SearchResult),
      r ∈ search_pdfs pdfs q →
      r.«matches».countP (fun m => contentTag.isPrefixOf m) ≤ 3) ∧
    (∀ (stl : Str) (segs rest ms : List Str) (c : Nat),
      ms.countP startsContent < 3 →
      3 ≤ (scanSegments stl segs ms c).1.countP startsContent →
      scanSegments stl (segs ++ rest) ms c = scanSegments stl segs ms c) := by
  constructor
  · intro pdfs q r h
    obtain ⟨pdf, _, hone⟩ := mem_search_pdfs pdfs q r h
    have hcap := (searchOne_props _ _ _ hone).2.2.1
    refine le_trans (List.countP_mono_left ?_) hcap
    intro m _ hm
    simp only [startsContent, List.isPrefixOf_iff_prefix] at hm ⊢
    exact List.IsPrefix.trans ( List.isPrefixOf_iff_prefix.mp (by rfl)) hm
  · exact fun stl segs rest ms c h h3 =>
      scanSegments_stops_at_three stl segs rest ms c h h3

/-- Witness for C5 at a concrete document whose text yields exactly 3
Content matches (a fourth matching sentence is not scanned). -/
theorem content_cap_three_witness :
    resultWitness.«matches».countP (fun m => contentTag.isPrefixOf m) ≤ 3 :=
  content_cap_three.1 [pdfWitness] ("alpha".toList) resultWitness
    (by
      simp only [search_pdfs]
      rw [if_neg (by decide)]
      exact List.mem_mergeSort.mpr (by decide))

/-- C6: every search result records at least one match, and its match
count equals the length of its matches list. -/
theorem match_floor (pdfs : List PDFInfo) (q : Str) (r : SearchResult)
    (h : r ∈ search_pdfs pdfs q) :
    1 ≤ r.match_count ∧ r.«matches».length = r.match_count := by
  obtain ⟨pdf, _, hone⟩ := mem_search_pdfs pdfs q r h
  obtain ⟨hcl, hlen, _, _⟩ := searchOne_props _ _ _ hone
  exact ⟨by omega, hcl.symm⟩

/-- Witness for C6 at the concrete sample search. -/
theorem match_floor_witness :
    1 ≤ resultWitness.match_count ∧
    resultWitness.«matches».length = resultWitness.match_count :=
  match_floor [pdfWitness] ("alpha".toList) resultWitness
    (by
      simp only [search_pdfs]
      rw [if_neg (by decide)]
      exact List.mem_mergeSort.mpr (by decide))

/-- C9: the snippet carried by every Content-tagged entry of a search
result is longer than 10 characters and at most 206 characters. -/
theorem content_snippet_length (pdfs : List PDFInfo) (q : Str)
    (r : SearchResult) (h : r ∈ search_pdfs pdfs q) (m : Str)
    (hm : m ∈ r.«matches») (hpfx : contentTag.isPrefixOf m = true) :
    10 < (m.drop contentTag.length).length ∧
    (m.drop contentTag.length).length ≤ 206 := by
  obtain ⟨pdf, _, hone⟩ := mem_search_pdfs pdfs q r h
  obtain ⟨_, _, _, t, hall, hcase⟩ := searchOne_props _ _ _ hone
  have hmt : m ∈ t := by
    rcases hcase with hc | hc
    · rw [hc] at hm
      exact hm
    · rw [hc] at hm
      rcases List.mem_cons.mp hm with rfl | hm2
      · rw [contentTag_not_isPrefixOf_filename] at hpfx
        cases hpfx
      · exact hm2
  obtain ⟨ctx, rfl, h10, h206⟩ := hall m hmt
  rw [List.drop_left]
  exact ⟨h10, h206⟩

/-- Witness for C9 at a concrete Content entry of the sample search. -/
theorem content_snippet_length_witness :
    10 < (("Content: the alpha one is here".toList).drop contentTag.length).length ∧
    (("Content: the alpha one is here".toList).drop contentTag.length).length ≤ 206 :=
  content_snippet_length [pdfWitness] ("alpha".toList) resultWitness
    (by
      simp only [search_pdfs]
      rw [if_neg (by decide)]
      exact List.mem_mergeSort.mpr (by decide))
    ("Content: the alpha one is here".toList) (by decide) (by decide)

/-- C10: a search result holds at most one Filename-tagged entry, and
every entry after the first is not Filename-tagged (so a Filename entry,
when present, is the first element, before every Content entry). -/
theorem filename_entry_first (pdfs : List PDFInfo) (q : Str)
    (r : SearchResult) (h : r ∈ search_pdfs pdfs q) :
    r.«matches».countP (fun m => filenameTag.isPrefixOf m) ≤ 1 ∧
    ∀ m ∈ r.«matches».drop 1, filenameTag.isPrefixOf m = false := by
  obtain ⟨pdf, _, hone⟩ := mem_search_pdfs pdfs q r h
  obtain ⟨_, _, _, t, hall, hcase⟩ := searchOne_props _ _ _ hone
  have htf : ∀ m ∈ t, filenameTag.isPrefixOf m = false := by
    intro m hm
    obtain ⟨ctx, rfl, _, _⟩ := hall m hm
    exact filenameTag_not_isPrefixOf_content ctx
  have htcount : t.countP (fun m => filenameTag.isPrefixOf m) = 0 := by
    rw [List.countP_eq_zero]
    intro m hm
    simp [htf m hm]
  rcases hcase with hc | hc <;> rw [hc]
  · refine ⟨by simp [htcount], ?_⟩
    intro m hm
    exact htf m (List.mem_of_mem_drop hm)
  · refine ⟨?_, ?_⟩
    · simp [List.countP_cons, htcount, filenameTag_isPrefixOf_self]
    · intro m hm
      rw [List.drop_succ_cons, List.drop_zero] at hm
      exact htf m hm

/-- Witness for C10 at the concrete sample search. -/
theorem filename_entry_first_witness :
    resultWitness.«matches».countP (fun m => filenameTag.isPrefixOf m) ≤ 1 ∧
    ∀ m ∈ resultWitness.«matches».drop 1, filenameTag.isPrefixOf m = false :=
  filename_entry_first [pdfWitness] ("alpha".toList) resultWitness
    (by
      simp only [search_pdfs]
      rw [if_neg (by decide)]
      exact List.mem_mergeSort.mpr (by decide))

/-- Lexicographic string comparison is total. -/
theorem strLe_total : ∀ a b : Str, strLe a b = true ∨ strLe b a = true
  | [], _ => Or.inl rfl
  | _ :: _, [] => Or.inr rfl
  | a :: as, b :: bs => by
    rcases lt_trichotomy a b with h | h | h
    · left
      simp [strLe, h]
    · subst h
      rcases strLe_total as bs with ih | ih
      · left
        simp [strLe, ih]
      · right
        simp [strLe, ih]
    · right
      simp [strLe, h]

/-- Lexicographic string comparison is transitive. -/
theorem strLe_trans : ∀ a b c : Str, strLe a b = true → strLe b c = true →
    strLe a c = true
  | [], _, _, _, _ => rfl
  | _ :: _, [], _, h1, _ => by simp [strLe] at h1
  | _ :: _, _ :: _, [], _, h2 => by simp [strLe] at h2
  | x :: xs, y :: ys, z :: zs, h1, h2 => by
    simp only [strLe] at h1 h2 ⊢
    by_cases hxy : x < y
    · by_cases hyz : y < z
      · simp [lt_trans hxy hyz]
      · by_cases hyz2 : y = z
        · subst hyz2
          simp [hxy]
        · simp [hyz, hyz2] at h2
    · by_cases hxy2 : x = y
      · subst hxy2
        simp only [lt_irrefl, if_false, if_pos rfl] at h1
        by_cases hxz : x < z
        · simp [hxz]
        · by_cases hxz2 : x = z
          · subst hxz2
            simp only [lt_irrefl, if_false, if_pos rfl] at h2 ⊢
            exact strLe_trans xs ys zs h1 h2
          · simp [hxz, hxz2] at h2
      · simp [hxy, hxy2] at h1

/-- The sort comparison of search_pdfs is transitive. -/
theorem rankLe_trans (a b c : SearchResult) (h1 : rankLe a b = true)
    (h2 : rankLe b c = true) : rankLe a c = true := by
  simp only [rankLe, Bool.or_eq_true, Bool.and_eq_true, decide_eq_true_eq,
    beq_iff_eq] at h1 h2 ⊢
  rcases h1 with h1 | ⟨h1e, h1s⟩
  · rcases h2 with h2 | ⟨h2e, h2s⟩
    · exact Or.inl (by omega)
    · exact Or.inl (by omega)
  · rcases h2 with h2 | ⟨h2e, h2s⟩
    · exact Or.inl (by omega)
    · exact Or.inr ⟨by omega, strLe_trans _ _ _ h1s h2s⟩

/-- The sort comparison of search_pdfs is total. -/
theorem rankLe_total (a b : SearchResult) :
    rankLe a b || rankLe b a := by
  simp only [rankLe, Bool.or_eq_true, Bool.and_eq_true, decide_eq_true_eq,
    beq_iff_eq]
  rcases Nat.lt_trichotomy a.match_count b.match_count with h | h | h
  · exact Or.inr (Or.inl h)
  · rcases strLe_total a.pdf.filename b.pdf.filename with hs | hs
    · exact Or.inl (Or.inr ⟨h, hs⟩)
    · exact Or.inr (Or.inr ⟨h.symm, hs⟩)
  · exact Or.inl (Or.inl h)

/-- C7: the search output is pairwise ordered by the relevance order:
descending match count first, then ascending filename as the tie-break.
In particular a result with 3 matches precedes one with 1 match, and for
equal counts the lexicographically earlier filename precedes. -/
theorem ranking_sorted (pdfs : List PDFInfo) (q : Str) :
    List.Pairwise rankRel (search_pdfs pdfs q) := by
  unfold search_pdfs
  split
  · exact List.Pairwise.nil
  · refine (@List.sorted_mergeSort SearchResult rankLe
      (fun a b c h1 h2 => rankLe_trans a b c h1 h2)
      (fun a b => rankLe_total a b) _).imp ?_
    intro a b hab
    simp only [rankLe, Bool.or_eq_true, Bool.and_eq_true, decide_eq_true_eq,
      beq_iff_eq] at hab
    exact hab

/-- C3: for a segment longer than 200 characters that contains the
(lowercased) query, the snippet the engine builds coincides with the
specification wording: the window of up to 100 characters either side of
the first case-insensitive occurrence, clamped to the segment bounds,
trimmed, with an ellipsis prefixed exactly when the window does not start
at the segment beginning, and suffixed exactly when it does not end at the
segment end. -/
theorem long_segment_snippet (segment query_lower : Str)
    (hlen : 200 < segment.length)
    (hc : containsSub (pyLower segment) query_lower = true) :
    buildContext segment query_lower = snippetSpec segment query_lower := by
  obtain ⟨pos, hpos⟩ := Option.isSome_iff_exists.mp
    (by simpa [containsSub] using hc)
  unfold buildContext snippetSpec pyFind
  rw [hpos, if_pos hlen]
  dsimp only
  have h1 : ((max 0 ((pos : Int) - 100))).toNat = pos - 100 := by omega
  have h2 : ((min (segment.length : Int) ((pos : Int) + 100))).toNat
      = min segment.length (pos + 100) := by omega
  have hslice : pySlice segment (max 0 ((pos : Int) - 100))
        (min (segment.length : Int) ((pos : Int) + 100))
      = (segment.drop (pos - 100)).take (min segment.length (pos + 100) - (pos - 100)) := by
    rw [pySlice, h1, h2]
  rw [hslice]
  by_cases hp1 : 100 < pos
  · have e1 : (0 : Int) < max 0 ((pos : Int) - 100) := by omega
    have e2 : pos - 100 ≠ 0 := by omega
    rw [if_pos e1, if_pos e2]
    by_cases hp2 : pos + 100 < segment.length
    · have e3 : min (segment.length : Int) ((pos : Int) + 100) < (segment.length : Int) := by
        omega
      have e4 : min segment.length (pos + 100) ≠ segment.length := by omega
      rw [if_pos e3, if_pos e4]
    · have e3 : ¬ (min (segment.length : Int) ((pos : Int) + 100) < (segment.length : Int)) := by
        omega
      have e4 : ¬ (min segment.length (pos + 100) ≠ segment.length) := by omega
      rw [if_neg e3, if_neg e4]
  · have e1 : ¬ ((0 : Int) < max 0 ((pos : Int) - 100)) := by omega
    have e2 : ¬ (pos - 100 ≠ 0) := by omega
    rw [if_neg e1, if_neg e2]
    by_cases hp2 : pos + 100 < segment.length
    · have e3 : min (segment.length : Int) ((pos : Int) + 100) < (segment.length : Int) := by
        omega
      have e4 : min segment.length (pos + 100) ≠ segment.length := by omega
      rw [if_pos e3, if_pos e4]
    · have e3 : ¬ (min (segment.length : Int) ((pos : Int) + 100) < (segment.length : Int)) := by
        omega
      have e4 : ¬ (min segment.length (pos + 100) ≠ segment.length) := by omega
      rw [if_neg e3, if_neg e4]

set_option maxRecDepth 8192 in
/-- Witness for C3 at a concrete 237-character segment. -/
theorem long_segment_snippet_witness :
    (200 < segWitness.length ∧
      containsSub (pyLower segWitness) qWitness = true) ∧
    buildContext segWitness qWitness = snippetSpec segWitness qWitness :=
  ⟨⟨by decide, by decide⟩,
    long_segment_snippet segWitness qWitness (by decide) (by decide)⟩

end Reports
